import Mathlib

/-!
Shallow embedding of the version-resolution, data-directory location,
download-and-prepare preconditions, split/statistics merge, metadata
reconciliation and builder-config resolution logic of
`tensorflow_datasets/core/dataset_builder.py` and
`tensorflow_datasets/core/dataset_info.py`, together with theorems
settling the specification claims about that logic.
-/

namespace TFDS

/-- Modelled from the spec: `utils.Version` (not under `src/`) is "a triple
(major, minor, patch) with a total order; may carry an optional
implementation ceiling (`tfds_version_to_prepare`)".  The ceiling does not
take part in ordering or equality of the triple. -/
structure Version where
  major : Nat
  minor : Nat
  patch : Nat
  tfds_version_to_prepare : Option String := none
deriving DecidableEq, Repr

/-- Modelled from the spec: a version specifier pattern — exact (`x.y.z`) or
wildcard components (`x.y.*`).  `none` in a component means wildcard. -/
structure VersionPattern where
  major : Option Nat
  minor : Option Nat
  patch : Option Nat
deriving DecidableEq, Repr

/-- Modelled from the spec: `Version.match` — a version matches a pattern when
each non-wildcard component is equal. -/
def Version.matches (v : Version) (p : VersionPattern) : Bool :=
  (p.major.all fun x => x == v.major) &&
  (p.minor.all fun x => x == v.minor) &&
  (p.patch.all fun x => x == v.patch)

/-- Strict order on versions: lexicographic on the (major, minor, patch)
triple, as Python tuple comparison on `Version.tuple`. -/
def Version.ltb (a b : Version) : Bool :=
  decide (a.major < b.major) ||
  (decide (a.major = b.major) &&
    (decide (a.minor < b.minor) ||
      (decide (a.minor = b.minor) && decide (a.patch < b.patch))))

/-- Key-equality of versions (the ceiling is not part of the key). -/
def Version.sameKey (a b : Version) : Bool :=
  decide (a.major = b.major) && decide (a.minor = b.minor) &&
    decide (a.patch = b.patch)

/-- Non-strict order on versions. -/
def Version.leb (a b : Version) : Bool :=
  Version.ltb a b || Version.sameKey a b

/-- The string rendering `str(v)` = "major.minor.patch". -/
def Version.str (v : Version) : String :=
  toString v.major ++ "." ++ toString v.minor ++ "." ++ toString v.patch

/-- Python `max(versions)`: fold keeping the current element unless a strictly
greater one appears (so the first maximal element wins on ties). -/
def listMax (c : Version) (s : List Version) : Version :=
  s.foldl (fun acc v => if Version.ltb acc v then v else acc) c

/-- The requested version argument of `DatasetBuilder._pick_version`:
`None`, the `"experimental_latest"` sentinel, or a concrete specifier. -/
inductive Requested where
  | noSpec
  | latest
  | pat (p : VersionPattern)
deriving DecidableEq, Repr

/-- `DatasetBuilder.versions`: `[canonical] + supported`, in preference
(declaration) order. -/
def versionsList (canonical : Version) (supported : List Version) :
    List Version :=
  canonical :: supported

/-- `DatasetBuilder._pick_version` (dataset_builder.py, lines 323-341):
on `"experimental_latest"` return `max(versions)`; otherwise scan
`versions` in order and return the first match (`None` matches anything);
on no match, raise carrying the available versions as strings in
declaration order. -/
def pick_version (canonical : Version) (supported : List Version)
    (req : Requested) : Except (List String) Version :=
  let versions := versionsList canonical supported
  match req with
  | .latest => .ok (listMax canonical supported)
  | .noSpec =>
    match versions.find? (fun _ => true) with
    | some v => .ok v
    | none => .error (versions.map Version.str)
  | .pat p =>
    match versions.find? (fun v => v.matches p) with
    | some v => .ok v
    | none => .error (versions.map Version.str)

theorem Version.leb_refl (a : Version) : Version.leb a a = true := by
  simp [Version.leb, Version.sameKey]

theorem Version.ltb_false_leb (a b : Version) (h : Version.ltb a b = false) :
    Version.leb b a = true := by
  simp [Version.ltb] at h
  simp [Version.leb, Version.ltb, Version.sameKey]
  omega

theorem Version.leb_trans (a b c : Version) (h₁ : Version.leb a b = true)
    (h₂ : Version.leb b c = true) : Version.leb a c = true := by
  simp [Version.leb, Version.ltb, Version.sameKey] at h₁ h₂ ⊢
  omega

theorem listMax_mem (c : Version) (s : List Version) :
    listMax c s ∈ c :: s := by
  induction s generalizing c with
  | nil => simp [listMax]
  | cons v t ih =>
    show listMax c (v :: t) ∈ c :: v :: t
    have : listMax c (v :: t) = listMax (if Version.ltb c v then v else c) t :=
      rfl
    rw [this]
    have h := ih (if Version.ltb c v then v else c)
    rcases List.mem_cons.mp h with h' | h'
    · rw [h']
      by_cases hc : Version.ltb c v = true
      · simp [hc]
      · simp [hc]
    · simp [h']

theorem listMax_ge (c : Version) (s : List Version) :
    ∀ x ∈ c :: s, Version.leb x (listMax c s) = true := by
  induction s generalizing c with
  | nil =>
    intro x hx
    simp at hx
    rw [hx]
    exact Version.leb_refl _
  | cons v t ih =>
    intro x hx
    have hstep : listMax c (v :: t) = listMax (if Version.ltb c v then v else c) t :=
      rfl
    rw [hstep]
    have hacc : ∀ y ∈ (if Version.ltb c v then v else c) :: t,
        Version.leb y (listMax (if Version.ltb c v then v else c) t) = true :=
      ih (if Version.ltb c v then v else c)
    have hmem : (if Version.ltb c v then v else c) ∈
        (if Version.ltb c v then v else c) :: t := List.mem_cons_self _ _
    have hc_le : Version.leb c (if Version.ltb c v then v else c) = true := by
      by_cases hcv : Version.ltb c v = true
      · simp [hcv, Version.leb, hcv]
      · simp [hcv]
        exact Version.leb_refl _
    have hv_le : Version.leb v (if Version.ltb c v then v else c) = true := by
      by_cases hcv : Version.ltb c v = true
      · simp [hcv]
        exact Version.leb_refl _
      · simp [hcv]
        exact Version.ltb_false_leb c v (by simpa using hcv)
    rcases List.mem_cons.mp hx with h' | h'
    · rw [h']
      exact Version.leb_trans _ _ _ hc_le (hacc _ hmem)
    · rcases List.mem_cons.mp h' with h'' | h''
      · rw [h'']
        exact Version.leb_trans _ _ _ hv_le (hacc _ hmem)
      · exact hacc x (List.mem_cons_of_mem _ h'')

theorem find?_first_characterization {α : Type} (f : α → Bool)
    (l : List α) (v : α) (h : l.find? f = some v) :
    ∃ i, l.get? i = some v ∧ f v = true ∧
      ∀ j w, j < i → l.get? j = some w → f w = false := by
  induction l with
  | nil => simp [List.find?] at h
  | cons a t ih =>
    by_cases ha : f a = true
    · rw [List.find?_cons_of_pos _ ha] at h
      refine ⟨0, ?_⟩
      simp at h
      simp [← h, ha]
    · have ha' : f a = false := by simpa using ha
      rw [List.find?_cons_of_neg _ (by simp [ha'])] at h
      obtain ⟨i, hi, hv, hbefore⟩ := ih h
      refine ⟨i + 1, by simpa using hi, hv, ?_⟩
      intro j w hj hw
      cases j with
      | zero =>
        simp at hw
        rw [← hw]; exact ha'
      | succ j' =>
        exact hbefore j' w (by omega) (by simpa using hw)

/-- C1: version resolution returns the maximum candidate on the "latest"
sentinel; otherwise the first candidate in declared order matching the
specifier, a `None` specifier matching every candidate, so requesting
`None` yields the canonical version. -/
theorem pick_version_characterization (c : Version) (s : List Version) :
    pick_version c s .noSpec = .ok c ∧
    (∃ m, pick_version c s .latest = .ok m ∧ m ∈ versionsList c s ∧
      ∀ v ∈ versionsList c s, Version.leb v m = true) ∧
    (∀ p v, pick_version c s (.pat p) = .ok v →
      ∃ i, (versionsList c s).get? i = some v ∧ v.matches p = true ∧
        ∀ j w, j < i → (versionsList c s).get? j = some w →
          w.matches p = false) ∧
    (∀ p, (∃ w ∈ versionsList c s, w.matches p = true) →
      ∃ v, pick_version c s (.pat p) = .ok v) := by
  refine ⟨?_, ⟨listMax c s, rfl, listMax_mem c s, listMax_ge c s⟩, ?_, ?_⟩
  · simp [pick_version, versionsList, List.find?]
  · intro p v h
    simp only [pick_version] at h
    rcases hfind : (versionsList c s).find? (fun v => v.matches p) with _ | w
    · rw [hfind] at h
      exact absurd h (by simp)
    · rw [hfind] at h
      simp at h
      rw [← h]
      exact find?_first_characterization _ _ _ hfind
  · intro p hex
    obtain ⟨w, hw, hmatch⟩ := hex
    have : (versionsList c s).find? (fun v => v.matches p) ≠ none := by
      intro hnone
      have := List.find?_eq_none.mp hnone w hw
      rw [hmatch] at this
      exact this rfl
    rcases hfind : (versionsList c s).find? (fun v => v.matches p) with _ | u
    · exact absurd hfind this
    · exact ⟨u, by simp [pick_version, hfind]⟩

/-- Witness for C1: canonical 1.0.0, supported [0.9.0]; requesting `None`
resolves to 1.0.0 and requesting `0.9.*` resolves to 0.9.0, which is the
first (and only) match. -/
theorem pick_version_characterization_witness :
    pick_version ⟨1, 0, 0, none⟩ [⟨0, 9, 0, none⟩] .noSpec =
      .ok ⟨1, 0, 0, none⟩ ∧
    (∃ i, (versionsList ⟨1, 0, 0, none⟩ [⟨0, 9, 0, none⟩]).get? i =
        some ⟨0, 9, 0, none⟩ ∧
      Version.matches ⟨0, 9, 0, none⟩ ⟨some 0, some 9, none⟩ = true ∧
      ∀ j w, j < i →
        (versionsList ⟨1, 0, 0, none⟩ [⟨0, 9, 0, none⟩]).get? j = some w →
        w.matches ⟨some 0, some 9, none⟩ = false) :=
  ⟨(pick_version_characterization ⟨1, 0, 0, none⟩ [⟨0, 9, 0, none⟩]).1,
   (pick_version_characterization ⟨1, 0, 0, none⟩ [⟨0, 9, 0, none⟩]).2.2.1
     ⟨some 0, some 9, none⟩ ⟨0, 9, 0, none⟩ rfl⟩

/-- C4 counterexample: with canonical 1.0.0 and supported [0.9.0], requesting
2.0.0 raises an error enumerating the versions as ["1.0.0", "0.9.0"]
(candidate declaration order: canonical first), not ["0.9.0", "1.0.0"] as
the claim's scenario states. -/
theorem pick_version_error_order_counterexample :
    pick_version ⟨1, 0, 0, none⟩ [⟨0, 9, 0, none⟩]
        (.pat ⟨some 2, some 0, some 0⟩) =
      .error ["1.0.0", "0.9.0"] ∧
    (["1.0.0", "0.9.0"] : List String) ≠ ["0.9.0", "1.0.0"] := by
  constructor
  · rfl
  · decide

/-- C4 amended: when no candidate matches, resolution fails with the
available versions rendered as strings in candidate declaration order
(canonical first, then supported in declared order) — for the §8 scenario
that list is ["1.0.0", "0.9.0"]. -/
theorem pick_version_error_order (c : Version) (s : List Version)
    (p : VersionPattern)
    (hnone : ∀ v ∈ versionsList c s, v.matches p = false) :
    pick_version c s (.pat p) =
      .error ((versionsList c s).map Version.str) := by
  simp only [pick_version]
  have : (versionsList c s).find? (fun v => v.matches p) = none := by
    apply List.find?_eq_none.mpr
    intro x hx
    rw [hnone x hx]
    simp
  rw [this]

/-- Witness for C4's amended claim at the §8 scenario: the error lists
["1.0.0", "0.9.0"]. -/
theorem pick_version_error_order_witness :
    pick_version ⟨1, 0, 0, none⟩ [⟨0, 9, 0, none⟩]
        (.pat ⟨some 2, some 0, some 0⟩) =
      .error ["1.0.0", "0.9.0"] := by
  have h := pick_version_error_order ⟨1, 0, 0, none⟩ [⟨0, 9, 0, none⟩]
    ⟨some 2, some 0, some 0⟩ (by decide)
  rw [h]
  rfl

/-! ## Data directory locator (`DatasetBuilder._build_data_dir`) -/

/-- `os.path.join` of a root and a relative path. -/
def joinPath (a b : String) : String := a ++ "/" ++ b

/-- `DatasetBuilder._relative_data_dir` (dataset_builder.py, lines 840-850):
`name[/config]` and, when `with_version`, `name[/config]/version`. -/
def relative_data_dir (name : String) (config : Option String)
    (version : Version) (with_version : Bool) : String :=
  let builder_data_dir :=
    match config with
    | some cfg => joinPath name cfg
    | none => name
  if with_version then joinPath builder_data_dir version.str
  else builder_data_dir

/-- One step of first-occurrence deduplication (insertion into a Python
`dict` keyed by the root: a later duplicate key does not move the key). -/
def insKeep (acc : List String) (x : String) : List String :=
  if x ∈ acc then acc else acc ++ [x]

/-- First-occurrence deduplication: the key order of a Python `dict` built
by insertion. -/
def dedupKeepFirst (l : List String) : List String :=
  l.foldl insKeep []

/-- Whether the requested version exists at a root: the root's
`<root>/<name>[/<config>]` directory lists a version with the same
(major, minor, patch) key (`self.version in data_dir_versions`). -/
def versionExistsAt (listVersions : String → List Version)
    (builder_dir : String) (version : Version) (root : String) : Bool :=
  (listVersions (joinPath root builder_dir)).any
    (fun w => Version.sameKey version w)

/-- The keys of `requested_version_dirs`: roots (in configured order, first
occurrence kept) where the requested version exists. -/
def requestedRoots (all_data_dirs : List String)
    (listVersions : String → List Version) (builder_dir : String)
    (version : Version) : List String :=
  dedupKeepFirst
    (all_data_dirs.filter (versionExistsAt listVersions builder_dir version))

/-- Result of the locator: the root used, the version directory, and whether
the non-fatal "found a different version" warning was logged. -/
structure LocatorResult where
  data_dir_root : String
  data_dir : String
  warned : Bool
deriving DecidableEq, Repr

/-- `DatasetBuilder._build_data_dir` (dataset_builder.py, lines 852-900).
`default_data_dir` stands for `file_utils.get_default_data_dir`,
`all_data_dirs` for `file_utils.list_data_dirs`, and `listVersions` for the
external directory-listing capability
(`utils.version.list_all_versions`), all outside `src/`.  More than one
root holding the requested version raises; exactly one returns that root
and its path; none returns the default root's path, warning iff any
version of the dataset was seen anywhere. -/
def build_data_dir (default_data_dir : String) (all_data_dirs : List String)
    (listVersions : String → List Version) (name : String)
    (config : Option String) (version : Version) :
    Except (List String) LocatorResult :=
  let builder_dir := relative_data_dir name config version false
  let version_dir := relative_data_dir name config version true
  let all_versions :=
    (all_data_dirs.map (fun root => listVersions (joinPath root builder_dir))).flatten
  match requestedRoots all_data_dirs listVersions builder_dir version with
  | [] =>
    .ok ⟨default_data_dir, joinPath default_data_dir version_dir,
      !all_versions.isEmpty⟩
  | [root] => .ok ⟨root, joinPath root version_dir, false⟩
  | r₁ :: r₂ :: rest =>
    .error ((r₁ :: r₂ :: rest).map (fun root => joinPath root version_dir))

theorem mem_foldl_insKeep (l : List String) (acc : List String) (x : String) :
    x ∈ l.foldl insKeep acc ↔ x ∈ acc ∨ x ∈ l := by
  induction l generalizing acc with
  | nil => simp
  | cons a t ih =>
    show x ∈ t.foldl insKeep (insKeep acc a) ↔ _
    rw [ih]
    have : x ∈ insKeep acc a ↔ x ∈ acc ∨ x = a := by
      by_cases ha : a ∈ acc
      · simp only [insKeep, if_pos ha]
        constructor
        · exact fun h => Or.inl h
        · rintro (h | h)
          · exact h
          · rw [h]; exact ha
      · simp [insKeep, if_neg ha]
    rw [this]
    simp only [List.mem_cons]
    tauto

theorem mem_dedupKeepFirst (l : List String) (x : String) :
    x ∈ dedupKeepFirst l ↔ x ∈ l := by
  rw [dedupKeepFirst, mem_foldl_insKeep]
  simp

theorem nodup_foldl_insKeep (l : List String) (acc : List String)
    (h : acc.Nodup) : (l.foldl insKeep acc).Nodup := by
  induction l generalizing acc with
  | nil => exact h
  | cons a t ih =>
    show (t.foldl insKeep (insKeep acc a)).Nodup
    apply ih
    by_cases ha : a ∈ acc
    · simpa [insKeep, if_pos ha] using h
    · rw [insKeep, if_neg ha]
      exact List.Nodup.append h (List.nodup_singleton a)
        (by simpa using ha)

theorem nodup_dedupKeepFirst (l : List String) :
    (dedupKeepFirst l).Nodup :=
  nodup_foldl_insKeep l [] List.nodup_nil

/-- C3: trichotomy of the data-directory locator — the requested version
present under two distinct roots is an error; present under exactly one
root returns that root and its version path; present nowhere returns the
default root's version path, with the non-fatal warning logged exactly
when some versions of the dataset were found at any root. -/
theorem build_data_dir_trichotomy (default_data_dir : String)
    (all_data_dirs : List String) (listVersions : String → List Version)
    (name : String) (config : Option String) (version : Version) :
    (∀ r₁ r₂, r₁ ∈ all_data_dirs → r₂ ∈ all_data_dirs → r₁ ≠ r₂ →
      versionExistsAt listVersions (relative_data_dir name config version false)
        version r₁ = true →
      versionExistsAt listVersions (relative_data_dir name config version false)
        version r₂ = true →
      ∃ e, build_data_dir default_data_dir all_data_dirs listVersions name
        config version = .error e) ∧
    (∀ r, r ∈ all_data_dirs →
      versionExistsAt listVersions (relative_data_dir name config version false)
        version r = true →
      (∀ r', r' ∈ all_data_dirs →
        versionExistsAt listVersions
          (relative_data_dir name config version false) version r' = true →
        r' = r) →
      build_data_dir default_data_dir all_data_dirs listVersions name config
          version =
        .ok ⟨r, joinPath r (relative_data_dir name config version true),
          false⟩) ∧
    ((∀ r, r ∈ all_data_dirs →
      versionExistsAt listVersions (relative_data_dir name config version false)
        version r = false) →
      build_data_dir default_data_dir all_data_dirs listVersions name config
          version =
        .ok ⟨default_data_dir,
          joinPath default_data_dir (relative_data_dir name config version true),
          !((all_data_dirs.map (fun root =>
            listVersions (joinPath root
              (relative_data_dir name config version false)))).flatten.isEmpty)⟩ ∧
      (((all_data_dirs.map (fun root =>
          listVersions (joinPath root
            (relative_data_dir name config version false)))).flatten.isEmpty
        = false) ↔
        ∃ r ∈ all_data_dirs,
          listVersions (joinPath r
            (relative_data_dir name config version false)) ≠ [])) := by
  refine ⟨?_, ?_, ?_⟩
  · intro r₁ r₂ h₁ h₂ hne he₁ he₂
    have hm₁ : r₁ ∈ requestedRoots all_data_dirs listVersions
        (relative_data_dir name config version false) version := by
      rw [requestedRoots, mem_dedupKeepFirst]
      exact List.mem_filter.mpr ⟨h₁, he₁⟩
    have hm₂ : r₂ ∈ requestedRoots all_data_dirs listVersions
        (relative_data_dir name config version false) version := by
      rw [requestedRoots, mem_dedupKeepFirst]
      exact List.mem_filter.mpr ⟨h₂, he₂⟩
    rcases hR : requestedRoots all_data_dirs listVersions
        (relative_data_dir name config version false) version with
      _ | ⟨a, _ | ⟨b, t⟩⟩
    · rw [hR] at hm₁
      exact absurd hm₁ (by simp)
    · rw [hR] at hm₁ hm₂
      simp at hm₁ hm₂
      exact absurd (hm₁.trans hm₂.symm) hne
    · refine ⟨(a :: b :: t).map (fun root =>
        joinPath root (relative_data_dir name config version true)), ?_⟩
      simp only [build_data_dir, hR]
  · intro r hr he huniq
    have hm : r ∈ requestedRoots all_data_dirs listVersions
        (relative_data_dir name config version false) version := by
      rw [requestedRoots, mem_dedupKeepFirst]
      exact List.mem_filter.mpr ⟨hr, he⟩
    have hall : ∀ x ∈ requestedRoots all_data_dirs listVersions
        (relative_data_dir name config version false) version, x = r := by
      intro x hx
      rw [requestedRoots, mem_dedupKeepFirst] at hx
      obtain ⟨hx₁, hx₂⟩ := List.mem_filter.mp hx
      exact huniq x hx₁ hx₂
    have hnodup := nodup_dedupKeepFirst
      (all_data_dirs.filter (versionExistsAt listVersions
        (relative_data_dir name config version false) version))
    rcases hR : requestedRoots all_data_dirs listVersions
        (relative_data_dir name config version false) version with
      _ | ⟨a, t⟩
    · rw [hR] at hm
      exact absurd hm (by simp)
    · have ha : a = r := hall a (by rw [hR]; simp)
      have ht : t = [] := by
        rcases t with _ | ⟨x, t'⟩
        · rfl
        · have hx : x = r := hall x (by rw [hR]; simp)
          have : (requestedRoots all_data_dirs listVersions
              (relative_data_dir name config version false) version).Nodup := by
            rw [requestedRoots]; exact hnodup
          rw [hR] at this
          simp [ha, hx] at this
      subst ha; subst ht
      simp only [build_data_dir, hR]
  · intro hnone
    have hfilter : all_data_dirs.filter (versionExistsAt listVersions
        (relative_data_dir name config version false) version) = [] := by
      rw [List.filter_eq_nil_iff]
      intro x hx
      rw [hnone x hx]
      simp
    have hR : requestedRoots all_data_dirs listVersions
        (relative_data_dir name config version false) version = [] := by
      rw [requestedRoots, hfilter]
      rfl
    refine ⟨by simp only [build_data_dir, hR], ?_⟩
    rw [List.isEmpty_eq_false]
    constructor
    · intro h
      obtain ⟨v, hv⟩ := List.exists_mem_of_ne_nil _ h
      rw [List.mem_flatten] at hv
      obtain ⟨l, hl, hvl⟩ := hv
      rw [List.mem_map] at hl
      obtain ⟨root, hroot, hlr⟩ := hl
      exact ⟨root, hroot, by rw [hlr]; exact List.ne_nil_of_mem hvl⟩
    · intro h
      obtain ⟨root, hroot, hne⟩ := h
      obtain ⟨v, hv⟩ := List.exists_mem_of_ne_nil _ hne
      have hvj : v ∈ (all_data_dirs.map (fun root =>
          listVersions (joinPath root
            (relative_data_dir name config version false)))).flatten :=
        List.mem_flatten.mpr ⟨listVersions (joinPath root
          (relative_data_dir name config version false)),
          List.mem_map.mpr ⟨root, hroot, rfl⟩, hv⟩
      intro hnil
      rw [hnil] at hvj
      exact absurd hvj (by simp)

/-- Witness for C3: with roots ["a", "b"] where only "b" holds version
1.0.0, the locator returns root "b" with path "b/mnist/1.0.0"; with no
root holding it, the default root is used and the advisory fires because
"b" holds 0.9.0. -/
theorem build_data_dir_trichotomy_witness :
    build_data_dir "d" ["a", "b"]
      (fun p => if p = "b/mnist" then [⟨1, 0, 0, none⟩] else []) "mnist"
      none ⟨1, 0, 0, none⟩ = .ok ⟨"b", "b/mnist/1.0.0", false⟩ ∧
    build_data_dir "d" ["a", "b"]
      (fun p => if p = "b/mnist" then [⟨0, 9, 0, none⟩] else []) "mnist"
      none ⟨1, 0, 0, none⟩ = .ok ⟨"d", "d/mnist/1.0.0", true⟩ := by
  constructor
  · have h := (build_data_dir_trichotomy "d" ["a", "b"]
      (fun p => if p = "b/mnist" then [⟨1, 0, 0, none⟩] else []) "mnist"
      none ⟨1, 0, 0, none⟩).2.1 "b" (by decide) (by decide)
      (by decide)
    rw [h]
    rfl
  · have h := ((build_data_dir_trichotomy "d" ["a", "b"]
      (fun p => if p = "b/mnist" then [⟨0, 9, 0, none⟩] else []) "mnist"
      none ⟨1, 0, 0, none⟩).2.2 (by decide)).1
    rw [h]
    rfl

/-! ## `DatasetBuilder.download_and_prepare` precondition stage -/

/-- `tfds.download.GenerateMode`. -/
inductive DownloadMode where
  | reuseDataset
  | reuseCache
  | forceRedownload
deriving DecidableEq, Repr

/-- The environment `download_and_prepare` observes before generation:
whether the canonical data dir exists on entry (and, after the
`REUSE_CACHE_IF_EXISTS` deletion, whether it still exists), the download
mode, the builder's versions and the picked version, and the disk-space
estimate outcome. -/
structure PrepareEnv where
  data_exists : Bool
  exists_after_delete : Bool
  download_mode : DownloadMode
  canonical : Version
  supported : List Version
  version : Version
  sufficient_disk : Bool
deriving DecidableEq, Repr

/-- Outcome of the precondition stage of `download_and_prepare`.  Only
`.proceed` reaches generation; every other constructor returns or raises
before any generation or filesystem write at the canonical path (the
`REUSE_CACHE_IF_EXISTS` deletion is the sole earlier filesystem action). -/
inductive PrepareOutcome where
  | reused
  | errTooOldToPrepare (available_to_prepare : List String)
  | errNotInstallable (available : List String)
  | errOverwrite
  | errDiskSpace
  | proceed
deriving DecidableEq, Repr

/-- `list(sorted({str(canonical), str(max(versions))}))` — the set of
versions the current code can generate, rendered sorted for the error
message. -/
def installableVersions (canonical : Version) (supported : List Version) :
    List String :=
  let a := canonical.str
  let b := (listMax canonical supported).str
  if a = b then [a] else if decide (a < b) then [a, b] else [b, a]

/-- `DatasetBuilder.download_and_prepare` (dataset_builder.py, lines
495-560), up to the point where generation starts.  Mirrors the code's
order: reuse-if-exists return, cache deletion, the
`tfds_version_to_prepare` ceiling check, the installable-version check,
the overwrite check, then the disk-space check. -/
def download_and_prepare (e : PrepareEnv) : PrepareOutcome :=
  if e.data_exists && (e.download_mode == DownloadMode.reuseDataset) then
    .reused
  else
    let data_exists :=
      if e.data_exists && (e.download_mode == DownloadMode.reuseCache) then
        e.exists_after_delete
      else e.data_exists
    if (e.version.tfds_version_to_prepare).isSome then
      .errTooOldToPrepare
        (((versionsList e.canonical e.supported).filter
          (fun v => v.tfds_version_to_prepare.isNone)).map Version.str)
    else if e.version.str ∈ installableVersions e.canonical e.supported then
      if data_exists then .errOverwrite
      else if !e.sufficient_disk then .errDiskSpace
      else .proceed
    else .errNotInstallable (installableVersions e.canonical e.supported)

theorem mem_installableVersions (canonical : Version)
    (supported : List Version) (s : String) :
    s ∈ installableVersions canonical supported ↔
      s = canonical.str ∨ s = (listMax canonical supported).str := by
  rw [installableVersions]
  by_cases hab : canonical.str = (listMax canonical supported).str
  · simp [hab]
  · rw [if_neg hab]
    by_cases hlt : canonical.str < (listMax canonical supported).str
    · simp [hlt]
    · simp [hlt]
      tauto

/-- C5: `download_and_prepare` proceeds past the version-generatability
preconditions only when the picked version's string is the canonical
version's or the maximum candidate's and the version carries no
implementation ceiling; otherwise (unless the reuse-if-exists early
return fired) it fails before generation with an error naming the
versions that remain generatable. -/
theorem download_and_prepare_version_gate (e : PrepareEnv) :
    ((download_and_prepare e = .errOverwrite ∨
      download_and_prepare e = .errDiskSpace ∨
      download_and_prepare e = .proceed) →
      e.version.tfds_version_to_prepare = none ∧
      (e.version.str = e.canonical.str ∨
        e.version.str = (listMax e.canonical e.supported).str)) ∧
    (¬(e.data_exists = true ∧ e.download_mode = DownloadMode.reuseDataset) →
      (e.version.tfds_version_to_prepare).isSome = true →
      download_and_prepare e = .errTooOldToPrepare
        (((versionsList e.canonical e.supported).filter
          (fun v => v.tfds_version_to_prepare.isNone)).map Version.str)) ∧
    (¬(e.data_exists = true ∧ e.download_mode = DownloadMode.reuseDataset) →
      e.version.tfds_version_to_prepare = none →
      e.version.str ∉ installableVersions e.canonical e.supported →
      download_and_prepare e = .errNotInstallable
        (installableVersions e.canonical e.supported)) := by
  refine ⟨?_, ?_, ?_⟩
  · intro h
    rw [download_and_prepare] at h
    by_cases hrd : e.data_exists && (e.download_mode == DownloadMode.reuseDataset)
    · rw [if_pos hrd] at h
      rcases h with h | h | h <;> exact absurd h (by simp)
    · rw [if_neg hrd] at h
      by_cases hceil : (e.version.tfds_version_to_prepare).isSome
      · rw [if_pos hceil] at h
        rcases h with h | h | h <;> exact absurd h (by simp)
      · rw [if_neg hceil] at h
        refine ⟨by simpa [Option.isNone_iff_eq_none] using hceil, ?_⟩
        by_cases hin : e.version.str ∈ installableVersions e.canonical e.supported
        · exact (mem_installableVersions _ _ _).mp hin
        · rw [if_neg hin] at h
          rcases h with h | h | h <;> exact absurd h (by simp)
  · intro hnr hceil
    rw [download_and_prepare]
    rw [if_neg (by simpa [Bool.and_eq_true] using hnr), if_pos hceil]
  · intro hnr hceil hnin
    rw [download_and_prepare]
    rw [if_neg (by simpa [Bool.and_eq_true] using hnr),
      if_neg (by simp [hceil]), if_neg hnin]

/-- Witness for C5: canonical 1.0.0, supported [0.9.0], no existing data;
requesting 0.9.0 (readable but not generatable) fails with the error
listing the generatable versions (only "1.0.0"). -/
theorem download_and_prepare_version_gate_witness :
    download_and_prepare
        ⟨false, false, DownloadMode.reuseDataset, ⟨1, 0, 0, none⟩,
          [⟨0, 9, 0, none⟩], ⟨0, 9, 0, none⟩, true⟩ =
      .errNotInstallable ["1.0.0"] := by
  have h := (download_and_prepare_version_gate
    ⟨false, false, DownloadMode.reuseDataset, ⟨1, 0, 0, none⟩,
      [⟨0, 9, 0, none⟩], ⟨0, 9, 0, none⟩, true⟩).2.2
    (by simp) rfl (by decide)
  rw [h]
  rfl

/-- C6 counterexample: an existing data dir with `FORCE_REDOWNLOAD` does
not always raise the overwrite error — when the picked version is an old
(merely readable) supported version, the version-generatability check
fires first and a different error is raised. -/
theorem download_and_prepare_overwrite_counterexample :
    download_and_prepare
        ⟨true, false, DownloadMode.forceRedownload, ⟨1, 0, 0, none⟩,
          [⟨0, 9, 0, none⟩], ⟨0, 9, 0, none⟩, true⟩ =
      .errNotInstallable ["1.0.0"] ∧
    PrepareOutcome.errNotInstallable ["1.0.0"] ≠ .errOverwrite := by
  exact ⟨rfl, by decide⟩

/-- C6 (amended): with an existing canonical data dir,
`REUSE_DATASET_IF_EXISTS` returns immediately (before every other check,
leaving directory and metadata untouched); with a mode that neither
reuses nor deletes the cache — or after the `REUSE_CACHE_IF_EXISTS`
deletion if the directory still exists — and the version-generatability
preconditions passing (they are checked first), the overwrite error is
raised before the disk-space check and before any generation. -/
theorem download_and_prepare_overwrite_gate (e : PrepareEnv)
    (hex : e.data_exists = true) :
    (e.download_mode = DownloadMode.reuseDataset →
      download_and_prepare e = .reused) ∧
    (e.download_mode = DownloadMode.forceRedownload →
      e.version.tfds_version_to_prepare = none →
      e.version.str ∈ installableVersions e.canonical e.supported →
      download_and_prepare e = .errOverwrite) ∧
    (e.download_mode = DownloadMode.reuseCache →
      e.exists_after_delete = true →
      e.version.tfds_version_to_prepare = none →
      e.version.str ∈ installableVersions e.canonical e.supported →
      download_and_prepare e = .errOverwrite) := by
  refine ⟨?_, ?_, ?_⟩
  · intro hmode
    rw [download_and_prepare, if_pos (by simp [hex, hmode])]
  · intro hmode hceil hin
    rw [download_and_prepare, if_neg (by simp [hmode]),
      if_neg (by simp [hceil]), if_pos hin,
      if_pos (by simp [hex, hmode])]
  · intro hmode hdel hceil hin
    rw [download_and_prepare, if_neg (by simp [hmode]),
      if_neg (by simp [hceil]), if_pos hin,
      if_pos (by simp [hex, hmode, hdel])]

/-- Witness for C6's amended claim: existing dir + reuse mode returns
`reused`; existing dir + force mode with the canonical version raises the
overwrite error. -/
theorem download_and_prepare_overwrite_gate_witness :
    download_and_prepare
        ⟨true, false, DownloadMode.reuseDataset, ⟨1, 0, 0, none⟩,
          [⟨0, 9, 0, none⟩], ⟨1, 0, 0, none⟩, true⟩ = .reused ∧
    download_and_prepare
        ⟨true, false, DownloadMode.forceRedownload, ⟨1, 0, 0, none⟩,
          [⟨0, 9, 0, none⟩], ⟨1, 0, 0, none⟩, true⟩ = .errOverwrite :=
  ⟨(download_and_prepare_overwrite_gate
      ⟨true, false, DownloadMode.reuseDataset, ⟨1, 0, 0, none⟩,
        [⟨0, 9, 0, none⟩], ⟨1, 0, 0, none⟩, true⟩ rfl).1 rfl,
   (download_and_prepare_overwrite_gate
      ⟨true, false, DownloadMode.forceRedownload, ⟨1, 0, 0, none⟩,
        [⟨0, 9, 0, none⟩], ⟨1, 0, 0, none⟩, true⟩ rfl).2.1 rfl rfl
     (by decide)⟩

/-! ## Split & statistics model and `DatasetInfo.set_splits` -/

/-- The default file format (`file_adapters.DEFAULT_FILE_FORMAT.value`). -/
def DEFAULT_FILE_FORMAT : String := "tfrecord"

/-- A statistics proto blob; `bytes = []` models a proto whose
`ByteSize()` is 0, i.e. a `SplitInfo` that carries no statistics. -/
structure Statistics where
  bytes : List Nat
deriving DecidableEq, Repr

/-- `statistics.ByteSize()`. -/
def Statistics.byteSize (s : Statistics) : Nat := s.bytes.length

/-- `naming.ShardedFileTemplate` restricted to the fields this logic
reads/writes. -/
structure ShardedFileTemplate where
  dataset_name : String
  data_dir : String
  filetype_suffix : String
  split : Option String
deriving DecidableEq, Repr

/-- `splits_lib.SplitInfo` restricted to the fields this logic uses. -/
structure SplitInfo where
  name : String
  shard_lengths : List Nat
  num_bytes : Nat
  statistics : Statistics
  filename_template : Option ShardedFileTemplate
deriving DecidableEq, Repr

/-- `splits_lib.MultiSplitInfo`: aggregates `SplitInfo` entries living in
more than one directory. -/
structure MultiSplitInfo where
  name : String
  split_infos : List SplitInfo
deriving DecidableEq, Repr

/-- A value of the ordered split mapping: either a plain `SplitInfo` or a
`MultiSplitInfo`. -/
inductive SplitEntry where
  | single (info : SplitInfo)
  | multi (m : MultiSplitInfo)
deriving DecidableEq, Repr

def SplitEntry.name : SplitEntry → String
  | .single i => i.name
  | .multi m => m.name

/-- Modelled from the spec: `MultiSplitInfo` (not under `src/`) "aggregates
SplitInfo entries"; its statistics and shard lengths concatenate those of
its members.  Only consulted when an existing entry of the same name is
read during the merge. -/
def SplitEntry.statistics : SplitEntry → Statistics
  | .single i => i.statistics
  | .multi m => ⟨(m.split_infos.map (fun i => i.statistics.bytes)).flatten⟩

/-- Modelled from the spec: aggregated shard lengths of an entry. -/
def SplitEntry.shard_lengths : SplitEntry → List Nat
  | .single i => i.shard_lengths
  | .multi m => (m.split_infos.map SplitInfo.shard_lengths).flatten

/-- `DatasetIdentity` restricted to the fields this logic uses. -/
structure DatasetIdentity where
  name : String
  version : Version
  data_dir : String
  module_name : String
  config_name : Option String
deriving DecidableEq, Repr

/-- The `DatasetInfo` state this logic reads and writes: identity, file
format, the ordered split mapping, the remaining descriptor fields as an
association list (field name to optional value, `none` meaning
unset/default), and the fully-initialized flag. -/
structure InfoState where
  identity : DatasetIdentity
  file_format : Option String
  splits : List SplitEntry
  otherFields : List (String × Option String)
  fullyInit : Bool
deriving DecidableEq, Repr

def InfoState.name (st : InfoState) : String := st.identity.name

def InfoState.data_dir (st : InfoState) : String := st.identity.data_dir

/-- `self._splits.get(name)`. -/
def lookupEntry (entries : List SplitEntry) (n : String) : Option SplitEntry :=
  entries.find? (fun e => e.name == n)

/-- The check opening `set_splits`: a non-multi `SplitInfo` carrying a
filename template whose dataset name differs from the owning dataset's
name is a fatal consistency error. -/
def entryNameMismatch (dsname : String) : SplitEntry → Bool
  | .multi _ => false
  | .single i =>
    match i.filename_template with
    | none => false
    | some t => decide (t.dataset_name ≠ dsname)

/-- The per-entry body of the `set_splits` loop (dataset_info.py, lines
458-471): multi entries verbatim; otherwise forward the old statistics
when the incoming entry has none, the old one of the same name has some,
and the shard-length sequences coincide; then synthesize a filename
template when missing. -/
def mergeOneSplit (st : InfoState) (tmpl : ShardedFileTemplate) :
    SplitEntry → SplitEntry
  | .multi m => .multi m
  | .single i =>
    let i' :=
      match lookupEntry st.splits i.name with
      | some old =>
        if decide (i.statistics.byteSize = 0) &&
            decide (old.statistics.byteSize ≠ 0) &&
            decide (old.shard_lengths = i.shard_lengths) then
          { i with statistics := old.statistics }
        else i
      | none => i
    match i'.filename_template with
    | some _ => .single i'
    | none =>
      let t2 := { tmpl with split := some i'.name }
      .single { i' with filename_template := some t2 }

/-- `DatasetInfo.set_splits` (dataset_info.py, lines 437-484). -/
def set_splits (st : InfoState) (split_dict : List SplitEntry) :
    Except String InfoState :=
  if split_dict.any (entryNameMismatch st.name) then
    .error "split dataset_name does not match dataset_info"
  else
    let tmpl : ShardedFileTemplate :=
      ⟨st.name, st.data_dir, st.file_format.getD DEFAULT_FILE_FORMAT, none⟩
    .ok { st with splits := split_dict.map (mergeOneSplit st tmpl) }

theorem set_splits_ok_splits (st : InfoState) (new : List SplitEntry)
    (st' : InfoState) (h : set_splits st new = .ok st') :
    st'.splits = new.map (mergeOneSplit st
      ⟨st.name, st.data_dir, st.file_format.getD DEFAULT_FILE_FORMAT, none⟩) ∧
    st'.identity = st.identity ∧ st'.file_format = st.file_format ∧
    st'.otherFields = st.otherFields ∧ st'.fullyInit = st.fullyInit := by
  rw [set_splits] at h
  by_cases hany : new.any (entryNameMismatch st.name)
  · rw [if_pos hany] at h
    exact absurd h (by simp)
  · rw [if_neg hany] at h
    simp only [Except.ok.injEq] at h
    rw [← h]
    exact ⟨rfl, rfl, rfl, rfl, rfl⟩

/-- C2: in `set_splits`, an incoming statistics-less `SplitInfo` whose
existing namesake has statistics and the same shard-length sequence
receives the existing statistics; with a different shard-length sequence
the old statistics are dropped; `MultiSplitInfo` entries are kept
verbatim. -/
theorem set_splits_statistics_merge (st : InfoState) (new : List SplitEntry)
    (st' : InfoState) (h : set_splits st new = .ok st') :
    (∀ k m, new.get? k = some (.multi m) →
      st'.splits.get? k = some (.multi m)) ∧
    (∀ k i old, new.get? k = some (.single i) →
      i.statistics.byteSize = 0 →
      lookupEntry st.splits i.name = some old →
      old.statistics.byteSize ≠ 0 →
      old.shard_lengths = i.shard_lengths →
      ∃ j, st'.splits.get? k = some (.single j) ∧ j.name = i.name ∧
        j.shard_lengths = i.shard_lengths ∧
        j.statistics = old.statistics) ∧
    (∀ k i old, new.get? k = some (.single i) →
      i.statistics.byteSize = 0 →
      lookupEntry st.splits i.name = some old →
      old.shard_lengths ≠ i.shard_lengths →
      ∃ j, st'.splits.get? k = some (.single j) ∧ j.name = i.name ∧
        j.shard_lengths = i.shard_lengths ∧
        j.statistics = i.statistics) := by
  obtain ⟨hsp, -, -, -, -⟩ := set_splits_ok_splits st new st' h
  refine ⟨?_, ?_, ?_⟩
  · intro k m hk
    rw [hsp, List.get?_map, hk]
    rfl
  · intro k i old hk h0 hold holdne hshard
    have hsget : st'.splits.get? k = some (mergeOneSplit st
        ⟨st.name, st.data_dir, st.file_format.getD DEFAULT_FILE_FORMAT, none⟩
        (.single i)) := by
      rw [hsp, List.get?_map, hk]
      rfl
    rcases htm : i.filename_template with _ | t
    · refine ⟨⟨i.name, i.shard_lengths, i.num_bytes, old.statistics,
        some ⟨st.name, st.data_dir, st.file_format.getD DEFAULT_FILE_FORMAT,
          some i.name⟩⟩, ?_, rfl, rfl, rfl⟩
      rw [hsget]
      congr 1
      simp only [mergeOneSplit, hold]
      rw [if_pos (by simp [h0, holdne, hshard])]
      simp [htm]
    · refine ⟨⟨i.name, i.shard_lengths, i.num_bytes, old.statistics,
        some t⟩, ?_, rfl, rfl, rfl⟩
      rw [hsget]
      congr 1
      simp only [mergeOneSplit, hold]
      rw [if_pos (by simp [h0, holdne, hshard])]
      simp [htm]
  · intro k i old hk h0 hold hshard
    have hsget : st'.splits.get? k = some (mergeOneSplit st
        ⟨st.name, st.data_dir, st.file_format.getD DEFAULT_FILE_FORMAT, none⟩
        (.single i)) := by
      rw [hsp, List.get?_map, hk]
      rfl
    rcases htm : i.filename_template with _ | t
    · refine ⟨⟨i.name, i.shard_lengths, i.num_bytes, i.statistics,
        some ⟨st.name, st.data_dir, st.file_format.getD DEFAULT_FILE_FORMAT,
          some i.name⟩⟩, ?_, rfl, rfl, rfl⟩
      rw [hsget]
      congr 1
      simp only [mergeOneSplit, hold]
      rw [if_neg (by simp [hshard])]
      simp [htm]
    · refine ⟨i, ?_, rfl, rfl, rfl⟩
      rw [hsget]
      congr 1
      simp only [mergeOneSplit, hold]
      rw [if_neg (by simp [hshard])]
      simp [htm]

/-- Witness for C2: re-publishing split "train" with shard lengths
[100, 100] and no statistics over an existing "train" with statistics and
the same shard lengths preserves the statistics; with shard lengths [50]
instead, the old statistics are dropped. -/
theorem set_splits_statistics_merge_witness :
    (∃ st', set_splits
        ⟨⟨"mnist", ⟨1, 0, 0, none⟩, "dir", "mod", none⟩, none,
          [.single ⟨"train", [100, 100], 7, ⟨[1, 2]⟩, none⟩], [], false⟩
        [.single ⟨"train", [100, 100], 7, ⟨[]⟩, none⟩] = .ok st' ∧
      ∃ j, st'.splits.get? 0 = some (.single j) ∧
        j.shard_lengths = [100, 100] ∧ j.statistics = ⟨[1, 2]⟩) ∧
    (∃ st', set_splits
        ⟨⟨"mnist", ⟨1, 0, 0, none⟩, "dir", "mod", none⟩, none,
          [.single ⟨"train", [100, 100], 7, ⟨[1, 2]⟩, none⟩], [], false⟩
        [.single ⟨"train", [50], 7, ⟨[]⟩, none⟩] = .ok st' ∧
      ∃ j, st'.splits.get? 0 = some (.single j) ∧
        j.shard_lengths = [50] ∧ j.statistics = ⟨[]⟩) := by
  constructor
  · refine ⟨_, rfl, ?_⟩
    obtain ⟨-, h2, -⟩ := set_splits_statistics_merge
      ⟨⟨"mnist", ⟨1, 0, 0, none⟩, "dir", "mod", none⟩, none,
        [.single ⟨"train", [100, 100], 7, ⟨[1, 2]⟩, none⟩], [], false⟩
      [.single ⟨"train", [100, 100], 7, ⟨[]⟩, none⟩] _ rfl
    obtain ⟨j, hj, -, hsh, hst⟩ := h2 0 ⟨"train", [100, 100], 7, ⟨[]⟩, none⟩
      (.single ⟨"train", [100, 100], 7, ⟨[1, 2]⟩, none⟩) rfl rfl rfl
      (by decide) rfl
    exact ⟨j, hj, hsh, hst⟩
  · refine ⟨_, rfl, ?_⟩
    obtain ⟨-, -, h3⟩ := set_splits_statistics_merge
      ⟨⟨"mnist", ⟨1, 0, 0, none⟩, "dir", "mod", none⟩, none,
        [.single ⟨"train", [100, 100], 7, ⟨[1, 2]⟩, none⟩], [], false⟩
      [.single ⟨"train", [50], 7, ⟨[]⟩, none⟩] _ rfl
    obtain ⟨j, hj, -, hsh, hst⟩ := h3 0 ⟨"train", [50], 7, ⟨[]⟩, none⟩
      (.single ⟨"train", [100, 100], 7, ⟨[1, 2]⟩, none⟩) rfl rfl rfl
      (by decide)
    exact ⟨j, hj, hsh, hst⟩

/-! ## Metadata persistence: `DatasetInfo.read_from_directory` -/

/-- One split record of the persisted descriptor
(`dataset_info.json` splits). -/
structure ProtoSplitInfo where
  name : String
  shard_lengths : List Nat
  num_bytes : Nat
  statistics : Statistics
deriving DecidableEq, Repr

/-- The parsed persisted descriptor (`parsed_proto`): identity fields,
splits, file format, and the remaining descriptor fields as an
association list (field name to optional value, `none` meaning
unset/default). -/
structure StoredProto where
  name : String
  version : Version
  module_name : String
  config_name : Option String
  splits : List ProtoSplitInfo
  file_format : Option String
  otherFields : List (String × Option String)
deriving DecidableEq, Repr

/-- Look a field up by name in a proto modelled as an association list;
`none` means the schema has no such field, `some v` its (optional)
value. -/
def lookupField (fields : List (String × Option String)) (n : String) :
    Option (Option String) :=
  (fields.find? (fun kv => kv.1 == n)).map Prod.snd

/-- The reconciliation loop of `read_from_directory` (dataset_info.py,
lines 586-617) over the non-identity, non-split fields: a field defined
in code keeps its code value; a field undefined in code but defined in
the persisted descriptor adopts the persisted value; otherwise nothing
changes. -/
def reconcileOneField (restoredVal : Option (Option String)) :
    Option String → Option String
  | some v => some v
  | none =>
    match restoredVal with
    | some (some w) => some w
    | _ => none

def reconcileFields (code restored : List (String × Option String)) :
    List (String × Option String) :=
  code.map (fun kv =>
    (kv.1, reconcileOneField (lookupField restored kv.1) kv.2))

/-- The raw proto value of a possibly-unset field (unset reads as the
default value). -/
def rawFieldValue (v : Option String) : String := v.getD ""

/-- The fields for which the loop logs (and never raises) a code/disk
mismatch: defined in code with a value differing from the persisted raw
value. -/
def reconcileConflictLog (code restored : List (String × Option String)) :
    List String :=
  code.filterMap (fun kv =>
    match kv.2 with
    | some v =>
      if v ≠ rawFieldValue ((lookupField restored kv.1).getD none) then
        some kv.1
      else none
    | none => none)

/-- The failures of `read_from_directory`: missing descriptor, version
mismatch between code and persisted descriptor, or the `set_splits`
consistency assertion.  An error leaves the in-memory `InfoState`
untouched (no persisted identity, splits or fields are adopted). -/
inductive ReadError where
  | notFound
  | versionMismatch (code_version disk_version : String)
  | splitsAssertion (msg : String)
deriving DecidableEq, Repr

/-- Modelled from the spec: `SplitDict.from_proto` (not under `src/`) turns
each persisted split record into a `SplitInfo` carrying the supplied
filename template specialized to its split name. -/
def protoSplitToEntry (tmpl : ShardedFileTemplate) (ps : ProtoSplitInfo) :
    SplitEntry :=
  .single ⟨ps.name, ps.shard_lengths, ps.num_bytes, ps.statistics,
    some ⟨tmpl.dataset_name, tmpl.data_dir, tmpl.filetype_suffix,
      some ps.name⟩⟩

/-- `DatasetInfo.read_from_directory` (dataset_info.py, lines 524-620):
missing descriptor fails; a persisted version string different from the
code-declared version string fails before anything is adopted; otherwise
the identity is rebuilt from the persisted descriptor, the splits are
reinstalled through `set_splits`, the remaining fields are reconciled
field by field (conflicts only logged, returned as the second component),
and the state is marked fully initialized. -/
def read_from_directory (st : InfoState) (stored : Option StoredProto)
    (dataset_info_dir : String) : Except ReadError (InfoState × List String) :=
  match stored with
  | none => .error .notFound
  | some p =>
    if st.identity.version.str ≠ p.version.str then
      .error (.versionMismatch st.identity.version.str p.version.str)
    else
      match set_splits
          ⟨⟨p.name, p.version, dataset_info_dir, p.module_name,
            p.config_name⟩, st.file_format, st.splits, st.otherFields,
            st.fullyInit⟩
          (p.splits.map (protoSplitToEntry
            ⟨p.name, dataset_info_dir, p.file_format.getD "tfrecord",
              none⟩)) with
      | .error e => .error (.splitsAssertion e)
      | .ok st₂ =>
        .ok (⟨st₂.identity,
          (match st₂.file_format with
            | some f => some f
            | none => p.file_format),
          st₂.splits,
          reconcileFields st₂.otherFields p.otherFields,
          true⟩,
          reconcileConflictLog st₂.otherFields p.otherFields)

theorem lookupField_cons (a : String) (b : Option String)
    (t : List (String × Option String)) (n : String) :
    lookupField ((a, b) :: t) n =
      if a == n then some b else lookupField t n := by
  by_cases h : a == n <;> simp [lookupField, List.find?, h]

theorem lookupField_reconcileFields (code restored :
    List (String × Option String)) (n : String) :
    lookupField (reconcileFields code restored) n =
      (lookupField code n).map
        (reconcileOneField (lookupField restored n)) := by
  induction code with
  | nil => simp [reconcileFields, lookupField]
  | cons kv t ih =>
    obtain ⟨a, b⟩ := kv
    show lookupField ((a, reconcileOneField (lookupField restored a) b) ::
      reconcileFields t restored) n = _
    rw [lookupField_cons, lookupField_cons]
    by_cases hn : a == n
    · have han : a = n := by simpa using hn
      subst han
      rw [if_pos hn, if_pos hn]
      rfl
    · rw [if_neg hn, if_neg hn, ih]

/-- C7: when loading succeeds, every non-identity, non-split descriptor
field is reconciled field by field — a field defined in code keeps its
code value (a disagreement with the persisted value is only logged,
returned in the conflict log, never an error); a field undefined in code
adopts the persisted value when one is defined; a field defined nowhere
stays unset. -/
theorem read_field_reconciliation (st : InfoState) (p : StoredProto)
    (dir : String) (st' : InfoState) (log : List String)
    (h : read_from_directory st (some p) dir = .ok (st', log)) :
    st'.otherFields = reconcileFields st.otherFields p.otherFields ∧
    log = reconcileConflictLog st.otherFields p.otherFields ∧
    (∀ n v, lookupField st.otherFields n = some (some v) →
      lookupField st'.otherFields n = some (some v)) ∧
    (∀ n w, lookupField st.otherFields n = some none →
      lookupField p.otherFields n = some (some w) →
      lookupField st'.otherFields n = some (some w)) ∧
    (∀ n, lookupField st.otherFields n = some none →
      (lookupField p.otherFields n = some none ∨
        lookupField p.otherFields n = none) →
      lookupField st'.otherFields n = some none) := by
  rw [read_from_directory] at h
  by_cases hv : st.identity.version.str ≠ p.version.str
  · rw [if_pos hv] at h
    exact absurd h (by simp)
  · rw [if_neg hv] at h
    rcases hs : set_splits
        ⟨⟨p.name, p.version, dir, p.module_name, p.config_name⟩,
          st.file_format, st.splits, st.otherFields, st.fullyInit⟩
        (p.splits.map (protoSplitToEntry
          ⟨p.name, dir, p.file_format.getD "tfrecord", none⟩)) with e | st₂
    · rw [hs] at h
      exact absurd h (by simp)
    · rw [hs] at h
      simp only [Except.ok.injEq, Prod.mk.injEq] at h
      obtain ⟨hst', hlog⟩ := h
      obtain ⟨-, -, -, hof, -⟩ := set_splits_ok_splits _ _ _ hs
      have hof' : st'.otherFields = reconcileFields st.otherFields
          p.otherFields := by
        rw [← hst']
        show reconcileFields st₂.otherFields p.otherFields = _
        rw [hof]
      refine ⟨hof', by rw [← hlog, hof], ?_, ?_, ?_⟩
      · intro n v hn
        rw [hof', lookupField_reconcileFields, hn]
        rfl
      · intro n w hn hw
        rw [hof', lookupField_reconcileFields, hn, hw]
        rfl
      · intro n hn hw
        rcases hw with hw | hw <;>
          rw [hof', lookupField_reconcileFields, hn, hw] <;> rfl

/-- Witness for C7: code defines "description" (kept over the disk value,
with the conflict logged), leaves "homepage" unset (the disk value is
adopted) and "citation" unset on both sides (stays unset). -/
theorem read_field_reconciliation_witness :
    ∃ st' log, read_from_directory
        ⟨⟨"mnist", ⟨1, 0, 0, none⟩, "old", "mod", none⟩, none, [],
          [("description", some "code"), ("homepage", none),
            ("citation", none)], false⟩
        (some ⟨"mnist", ⟨1, 0, 0, none⟩, "mod", none, [], none,
          [("description", some "disk"), ("homepage", some "h"),
            ("citation", none)]⟩)
        "dir" = .ok (st', log) ∧
      lookupField st'.otherFields "description" = some (some "code") ∧
      lookupField st'.otherFields "homepage" = some (some "h") ∧
      lookupField st'.otherFields "citation" = some none ∧
      log = ["description"] := by
  have H := read_field_reconciliation
    ⟨⟨"mnist", ⟨1, 0, 0, none⟩, "old", "mod", none⟩, none, [],
      [("description", some "code"), ("homepage", none),
        ("citation", none)], false⟩
    ⟨"mnist", ⟨1, 0, 0, none⟩, "mod", none, [], none,
      [("description", some "disk"), ("homepage", some "h"),
        ("citation", none)]⟩
    "dir"
    ⟨⟨"mnist", ⟨1, 0, 0, none⟩, "dir", "mod", none⟩, none, [],
      [("description", some "code"), ("homepage", some "h"),
        ("citation", none)], true⟩
    ["description"] rfl
  exact ⟨⟨⟨"mnist", ⟨1, 0, 0, none⟩, "dir", "mod", none⟩, none, [],
      [("description", some "code"), ("homepage", some "h"),
        ("citation", none)], true⟩, ["description"], rfl,
    H.2.2.1 "description" "code" rfl,
    H.2.2.2.1 "homepage" "h" rfl rfl,
    H.2.2.2.2 "citation" rfl (Or.inl rfl), rfl⟩

/-- C8: loading fails with the fatal version-mismatch assertion whenever
the persisted version string differs from the code-declared version
string — before adopting any persisted identity or splits (an error
carries no new state) — and a successful load implies the version strings
are equal. -/
theorem read_version_guard (st : InfoState) (p : StoredProto)
    (dir : String) :
    (p.version.str ≠ st.identity.version.str →
      read_from_directory st (some p) dir =
        .error (.versionMismatch st.identity.version.str p.version.str)) ∧
    (∀ res, read_from_directory st (some p) dir = .ok res →
      p.version.str = st.identity.version.str) := by
  constructor
  · intro hne
    rw [read_from_directory, if_pos (Ne.symm hne)]
  · intro res hok
    by_cases hv : st.identity.version.str = p.version.str
    · exact hv.symm
    · rw [read_from_directory, if_pos hv] at hok
      exact absurd hok (by simp)

/-- Witness for C8: code version 1.0.0 against a persisted descriptor of
version 0.9.0 fails with the version-mismatch error. -/
theorem read_version_guard_witness :
    read_from_directory
        ⟨⟨"mnist", ⟨1, 0, 0, none⟩, "old", "mod", none⟩, none, [], [], false⟩
        (some ⟨"mnist", ⟨0, 9, 0, none⟩, "mod", none, [], none, []⟩)
        "dir" =
      .error (.versionMismatch "1.0.0" "0.9.0") := by
  have h := (read_version_guard
    ⟨⟨"mnist", ⟨1, 0, 0, none⟩, "old", "mod", none⟩, none, [], [], false⟩
    ⟨"mnist", ⟨0, 9, 0, none⟩, "mod", none, [], none, []⟩ "dir").1
    (by decide)
  rw [h]
  rfl

/-! ## Builder configuration resolution -/

/-- `BuilderConfig` (dataset_builder.py, lines 76-105).  `objId` models
Python object identity: two configs with equal fields but distinct
`objId` are distinct objects, and `is`-identity is modelled as equality
of the whole structure. -/
structure BuilderConfig where
  objId : Nat
  name : String
  version : Option Version
  supported_versions : List Version
  description : Option String
deriving DecidableEq, Repr

/-- The `config` argument of `DatasetBuilder.__init__`: `None`, a name, or
a config object. -/
inductive ConfigArg where
  | noneArg
  | byName (s : String)
  | byObj (c : BuilderConfig)
deriving DecidableEq, Repr

/-- The failures of builder-config resolution: the explicitly named
default config missing from the declared list (`RuntimeError`), an
unknown config name (`ValueError` listing the declared names), a config
without a name, and a custom config shadowing a registered name
(`ValueError` listing the declared names). -/
inductive ConfigError where
  | defaultNotFound (dname : String)
  | nameNotFound (s : String) (available : List String)
  | emptyName
  | conflictingName (available : List String)
deriving DecidableEq, Repr

/-- `_get_default_config` (dataset_builder.py, lines 1438-1465): no
declared configs — no default; no explicit default name — the first
declared config; an explicit default name — the config with that name,
or an error if none has it. -/
def get_default_config (builder_configs : List BuilderConfig)
    (default_config_name : Option String) :
    Except ConfigError (Option BuilderConfig) :=
  match builder_configs with
  | [] => .ok none
  | c :: rest =>
    match default_config_name with
    | none => .ok (some c)
    | some dname =>
      match (c :: rest).find? (fun bc => bc.name == dname) with
      | some bc => .ok (some bc)
      | none => .error (.defaultNotFound dname)

/-- `self.builder_configs.get(name)`: lookup in the dict keyed by config
name (names are unique among declared configs; the first match is the
registered config). -/
def lookupConfig (declared : List BuilderConfig) (n : String) :
    Option BuilderConfig :=
  declared.find? (fun c => c.name == n)

/-- The name checks at the end of `_create_builder_config`
(dataset_builder.py, lines 1084-1096): a config must have a name; a name
not among the declared ones is accepted as a custom config (logged); a
declared name demands the identical registered object, else the conflict
error. -/
def validateConfigObj (declared : List BuilderConfig)
    (cfg : BuilderConfig) : Except ConfigError (Option BuilderConfig) :=
  if cfg.name = "" then .error .emptyName
  else
    match lookupConfig declared cfg.name with
    | none => .ok (some cfg)
    | some reg =>
      if cfg = reg then .ok (some cfg)
      else .error (.conflictingName (declared.map BuilderConfig.name))

/-- `DatasetBuilder._create_builder_config` (dataset_builder.py, lines
1069-1096).  `None` resolves to the declared default; an empty-string
argument is falsy and yields no config; a name is looked up among the
declared configs; the resulting or supplied object passes the name
checks. -/
def create_builder_config (declared : List BuilderConfig)
    (default_config_name : Option String) (arg : ConfigArg) :
    Except ConfigError (Option BuilderConfig) :=
  match arg with
  | .noneArg =>
    match get_default_config declared default_config_name with
    | .error e => .error e
    | .ok none => .ok none
    | .ok (some cfg) => validateConfigObj declared cfg
  | .byName s =>
    if s = "" then .ok none
    else
      match lookupConfig declared s with
      | none => .error (.nameNotFound s (declared.map BuilderConfig.name))
      | some cfg => validateConfigObj declared cfg
  | .byObj cfg => validateConfigObj declared cfg

theorem lookupConfig_head (c : BuilderConfig) (rest : List BuilderConfig) :
    lookupConfig (c :: rest) c.name = some c := by
  rw [lookupConfig, List.find?_cons_of_pos]
  simp

/-- C9: builder-config resolution — `None` resolves to the declared
default (the first declared config when no explicit default name is set;
an explicit default name naming no declared config fails); an unknown
name fails listing all declared names; a supplied object with a declared
name that is not the identical registered object fails with the conflict
error; a supplied object whose name matches no declared config is
accepted as a custom config. -/
theorem create_builder_config_resolution (declared : List BuilderConfig)
    (dname : Option String) :
    (declared = [] →
      create_builder_config declared dname .noneArg = .ok none) ∧
    (∀ c rest, declared = c :: rest → dname = none → c.name ≠ "" →
      create_builder_config declared dname .noneArg = .ok (some c)) ∧
    (∀ d, dname = some d → declared ≠ [] →
      lookupConfig declared d = none →
      create_builder_config declared dname .noneArg =
        .error (.defaultNotFound d)) ∧
    (∀ s, s ≠ "" → lookupConfig declared s = none →
      create_builder_config declared dname (.byName s) =
        .error (.nameNotFound s (declared.map BuilderConfig.name))) ∧
    (∀ cfg reg, cfg.name ≠ "" → lookupConfig declared cfg.name = some reg →
      cfg ≠ reg →
      create_builder_config declared dname (.byObj cfg) =
        .error (.conflictingName (declared.map BuilderConfig.name))) ∧
    (∀ cfg, cfg.name ≠ "" → lookupConfig declared cfg.name = none →
      create_builder_config declared dname (.byObj cfg) =
        .ok (some cfg)) := by
  refine ⟨?_, ?_, ?_, ?_, ?_, ?_⟩
  · intro hd
    subst hd
    rfl
  · intro c rest hd hn hname
    subst hd
    subst hn
    have h1 : create_builder_config (c :: rest) none .noneArg =
        validateConfigObj (c :: rest) c := rfl
    rw [h1, validateConfigObj, if_neg hname, lookupConfig_head]
    simp
  · intro d hn hne hlook
    subst hn
    rcases declared with _ | ⟨c, rest⟩
    · exact absurd rfl hne
    · rw [lookupConfig] at hlook
      have hg : get_default_config (c :: rest) (some d) =
          .error (.defaultNotFound d) := by
        show (match (c :: rest).find? (fun bc => bc.name == d) with
          | some bc => Except.ok (some bc)
          | none => Except.error (ConfigError.defaultNotFound d)) = _
        rw [hlook]
      show (match get_default_config (c :: rest) (some d) with
        | .error e => Except.error e
        | .ok none => Except.ok none
        | .ok (some cfg) => validateConfigObj (c :: rest) cfg) = _
      rw [hg]
  · intro s hs hlook
    show create_builder_config declared dname (.byName s) = _
    rw [create_builder_config, if_neg hs, hlook]
  · intro cfg reg hname hlook hne
    show validateConfigObj declared cfg = _
    rw [validateConfigObj, if_neg hname, hlook]
    simp [hne]
  · intro cfg hname hlook
    show validateConfigObj declared cfg = _
    rw [validateConfigObj, if_neg hname, hlook]

/-- Witness for C9: declared configs "a" and "b" — `None` resolves to
"a"; the unknown name "z" fails listing ["a", "b"]; a different object
also named "a" fails with the conflict error; an object named "c"
is accepted as a custom config. -/
theorem create_builder_config_resolution_witness :
    create_builder_config [⟨0, "a", none, [], none⟩, ⟨1, "b", none, [], none⟩]
        none .noneArg = .ok (some ⟨0, "a", none, [], none⟩) ∧
    create_builder_config [⟨0, "a", none, [], none⟩, ⟨1, "b", none, [], none⟩]
        none (.byName "z") = .error (.nameNotFound "z" ["a", "b"]) ∧
    create_builder_config [⟨0, "a", none, [], none⟩, ⟨1, "b", none, [], none⟩]
        none (.byObj ⟨2, "a", none, [], none⟩) =
      .error (.conflictingName ["a", "b"]) ∧
    create_builder_config [⟨0, "a", none, [], none⟩, ⟨1, "b", none, [], none⟩]
        none (.byObj ⟨3, "c", none, [], none⟩) =
      .ok (some ⟨3, "c", none, [], none⟩) := by
  have H := create_builder_config_resolution
    [⟨0, "a", none, [], none⟩, ⟨1, "b", none, [], none⟩] none
  refine ⟨?_, ?_, ?_, ?_⟩
  · exact H.2.1 ⟨0, "a", none, [], none⟩ [⟨1, "b", none, [], none⟩]
      rfl rfl (by decide)
  · have h := H.2.2.2.1 "z" (by decide) rfl
    rw [h]
    rfl
  · have h := H.2.2.2.2.1 ⟨2, "a", none, [], none⟩ ⟨0, "a", none, [], none⟩
      (by decide) rfl (by decide)
    rw [h]
    rfl
  · exact H.2.2.2.2.2 ⟨3, "c", none, [], none⟩ (by decide) rfl

/-! ## Default-config-name persistence -/

/-- The content of the shared `.config/metadata.json` file:
`{"default_config_name": ...}`. -/
structure ConfigMetadata where
  default_config_name : String
deriving DecidableEq, Repr

/-- The filesystem as seen by the default-config-name persistence: a map
from path to file content; a later write of the same path shadows the
earlier one. -/
abbrev ConfigFileStore := List (String × ConfigMetadata)

/-- `data_dir/ds_name/.config/metadata.json`. -/
def configMetadataPath (common_dir : String) : String :=
  common_dir ++ "/.config/metadata.json"

/-- `_save_default_config_name` (dataset_builder.py, lines 1468-1488):
writes the name into the shared metadata file.  The
write-to-incomplete-file-then-rename discipline (from `utils`, outside
`src/`) appears here as one atomic write; `mkdir` is immaterial. -/
def save_default_config_name (fs : ConfigFileStore) (common_dir : String)
    (default_config_name : String) : ConfigFileStore :=
  (configMetadataPath common_dir, ⟨default_config_name⟩) :: fs

/-- `load_default_config_name` (dataset_builder.py, lines 1491-1497):
`None` when the metadata file does not exist, else the stored name. -/
def load_default_config_name (fs : ConfigFileStore) (common_dir : String) :
    Option String :=
  match fs.find? (fun kv => kv.1 == configMetadataPath common_dir) with
  | none => none
  | some kv => some kv.2.default_config_name

/-- C10: saving a default config name and loading it back returns the
saved name, the most recent save winning over earlier ones, while
loading from a store where the metadata file was never written returns
`None` without failing. -/
theorem save_load_default_config_name (fs : ConfigFileStore)
    (d s s' : String) :
    load_default_config_name (save_default_config_name fs d s) d = some s ∧
    load_default_config_name
        (save_default_config_name (save_default_config_name fs d s') d s)
        d = some s ∧
    load_default_config_name ([] : ConfigFileStore) d = none := by
  refine ⟨?_, ?_, rfl⟩ <;>
    simp [load_default_config_name, save_default_config_name, List.find?]

end TFDS
